import Mathlib

/-!
# Verification of the citation deep-linking subsystem

Shallow embedding of the RAG deep-linking frontend
(`DocumentViewer.jsx`, `RAGResponse.jsx`) and proofs about its
citation-marker resolution, deep-link decoding, document resolution,
page navigation and asynchronous chunk loading.

JavaScript numbers are modelled as `Option Int` where `none` plays the
role of `NaN`/`undefined` (every comparison against it is false, as in
JS); strings are `String`/`List Char`.
-/

/-! ## JS string/number primitives -/

/-- The whitespace characters skipped by `parseInt` (ASCII fragment;
the engine also skips other Unicode spaces, which never occur in the
inputs considered here). -/
def isJsSpace (c : Char) : Bool :=
  c == ' ' || c == '\t' || c == '\n' || c == '\r'

/-- Numeric value of a decimal digit character (`'0'` ↦ 0 …), as the
char-code arithmetic `c - 48` JS engines perform. -/
def digitVal (c : Char) : Nat := c.toNat - 48

/-- Character for a decimal digit value below 10. -/
def digitChr (d : Nat) : Char := Char.ofNat (48 + d)

/-- Most-significant-first accumulation of a digit string into a `Nat`. -/
def digitsToNat (ds : List Char) : Nat :=
  ds.foldl (fun a c => a * 10 + digitVal c) 0

/-- Optional sign prefix, as consumed by `parseInt`. -/
def parseSign (cs : List Char) : Int × List Char :=
  match cs with
  | [] => (1, [])
  | c :: rest =>
    if c = '-' then (-1, rest)
    else if c = '+' then (1, rest)
    else (1, c :: rest)

/-- JS `parseInt(s)` (radix-10 fragment: leading whitespace, optional
sign, then the longest prefix of decimal digits; `none` is `NaN`.
The `0x` radix auto-detection never fires on the inputs considered
here and is not modelled). -/
def parseIntChars (cs : List Char) : Option Int :=
  let cs1 := cs.dropWhile isJsSpace
  let sg := (parseSign cs1).1
  let cs2 := (parseSign cs1).2
  let ds := cs2.takeWhile Char.isDigit
  if ds.isEmpty then none else some (sg * (digitsToNat ds : Int))

/-- JS `parseInt` on a `String`. -/
def parseIntJS (s : String) : Option Int := parseIntChars s.toList

/-- JS `a || d` for string `a` that may be `null`: `null` and the empty
string are falsy and select the default. -/
def jsOrDefault (a : Option String) (d : String) : String :=
  match a with
  | none => d
  | some s => if s = "" then d else s

/-- JS `haystack.includes(needle)` (substring containment). -/
def jsIncludes (haystack needle : String) : Bool :=
  decide (needle.toList <:+: haystack.toList)

/-- Canonical decimal digit string of a natural number
(most significant digit first; `0` prints as `"0"`). -/
def natToDecChars (n : Nat) : List Char :=
  if n = 0 then ['0'] else ((Nat.digits 10 n).map digitChr).reverse

/-- Canonical decimal character string of an integer. -/
def intToDecChars (i : Int) : List Char :=
  if i < 0 then '-' :: natToDecChars i.natAbs else natToDecChars i.natAbs

/-- Canonical decimal `String` of an integer. -/
def intToDecStr (i : Int) : String := ⟨intToDecChars i⟩

/-! ## Data model (spec §3, shapes produced by the backend) -/

/-- A document catalog record, as returned by `GET /documents`. -/
structure Document where
  filename : String
  total_pages : Int
deriving Repr, DecidableEq

/-- A content chunk of one page, as returned by
`GET /document/{filename}/chunks`. -/
structure Chunk where
  chunk_id : String
  page_number : Int
  paragraph_number : Int
  semantic_type : String
  text : String
deriving Repr, DecidableEq

/-- A citation attached to a generated answer (`POST /query`). -/
structure Citation where
  citation_number : Int
  chunk_id : String
  filename : String
  page_number : Int
  paragraph_number : Int
  deep_link : String
deriving Repr, DecidableEq

/-! ## Deep Link Codec — decode side
(`DocumentViewer.jsx` lines 28–30)

The browser/router layer (`useParams`, `useSearchParams`) hands the
component the percent-decoded path parameter `docId` and a query-map;
`QueryParams` models `searchParams.get` for the three keys read. -/

/-- The query parameters of a viewer URL as seen through
`searchParams.get` (`none` = key absent). -/
structure QueryParams where
  page : Option String
  paragraph : Option String
  highlight : Option String
deriving Repr, DecidableEq

/-- The navigation target decoded by `DocumentViewer`:
`targetPage = parseInt(searchParams.get('page') || '1')`,
`targetParagraph = parseInt(searchParams.get('paragraph') || '0')`,
`highlightChunkId = searchParams.get('highlight')`.
`page`/`paragraph` are `none` when `parseInt` returned `NaN`. -/
structure DecodedTarget where
  document_id : String
  page : Option Int
  paragraph : Option Int
  highlight_chunk_id : Option String
deriving Repr, DecidableEq

/-- Decode step of the codec, exactly as the component computes its
deep-linking parameters. -/
def decodeTarget (docId : String) (q : QueryParams) : DecodedTarget :=
  { document_id := docId
    page := parseIntJS (jsOrDefault q.page "1")
    paragraph := parseIntJS (jsOrDefault q.paragraph "0")
    highlight_chunk_id := q.highlight }

/-! ## Document resolution and controller state
(`DocumentViewer.jsx` `loadDocument`, `goToPage`, `loadPageChunks`) -/

/-- The match test of `loadDocument`:
`d.filename.includes(docId) || docId.includes(d.filename)`. -/
def docMatch (docId : String) (d : Document) : Bool :=
  jsIncludes d.filename docId || jsIncludes docId d.filename

/-- `docData.documents.find(d => d.filename.includes(docId) ||
docId.includes(d.filename))` — a single left-to-right pass with the
disjunctive test. -/
def findDocument (catalog : List Document) (docId : String) : Option Document :=
  catalog.find? (docMatch docId)

/-- Mirror of the spec's words, for comparison with `findDocument`:
three-tier precedence — (a) exact identifier match, then (b) first
entry whose filename contains the identifier, then (c) first entry
whose filename is a substring of the identifier. -/
def findDocumentSpecPrecedence (catalog : List Document) (docId : String) :
    Option Document :=
  match catalog.find? (fun d => d.filename == docId) with
  | some d => some d
  | none =>
    match catalog.find? (fun d => jsIncludes d.filename docId) with
    | some d => some d
    | none => catalog.find? (fun d => jsIncludes docId d.filename)

/-- React state of `DocumentViewer` (`useState` hooks).
`currentPage` is a JS number, hence `Option Int` (`none` = `NaN`). -/
structure ViewerState where
  document : Option Document
  chunks : List Chunk
  currentPage : Option Int
  loading : Bool
  error : Option String
deriving Repr, DecidableEq

/-- The error message thrown when no catalog entry matches. -/
def docNotFoundMsg : String := "Document non trouvé"

/-- An in-flight chunk fetch, identified by the `(filename, page)` it
was issued for (`loadPageChunks(filename, page)`). -/
abbrev FetchReq := String × Option Int

/-- The synchronous part of `loadDocument` after the catalog response
arrived: resolve the document, set state, and issue the page-chunk
fetch.  Returns the new state and the fetch request issued (if any).
No clamping is applied to `target.page` before it is stored and
fetched. -/
def loadDocument (catalog : List Document) (docId : String)
    (target : DecodedTarget) (s : ViewerState) : ViewerState × Option FetchReq :=
  match findDocument catalog docId with
  | none =>
    ({ s with error := some docNotFoundMsg, loading := false }, none)
  | some d =>
    ({ s with document := some d, currentPage := target.page, loading := false },
      some (d.filename, target.page))

/-- JS `a < b` on possibly-`NaN`/`undefined` numbers: false when either
side is not a number. -/
def jsLtB : Option Int → Option Int → Bool
  | some a, some b => decide (a < b)
  | _, _ => false

/-- JS `a > b` on possibly-`NaN`/`undefined` numbers. -/
def jsGtB : Option Int → Option Int → Bool
  | some a, some b => decide (b < a)
  | _, _ => false

/-- `goToPage(page)`:
`if (page < 1 || page > document?.total_pages) return;` then
`setCurrentPage(page); await loadPageChunks(document.filename, page)`.
Returns `none` for the `TypeError` raised when the guard falls through
with no document loaded; otherwise the new state and the fetch issued
(`none` when the guard rejected). -/
def goToPage (s : ViewerState) (page : Option Int) :
    Option (ViewerState × Option FetchReq) :=
  if jsLtB page (some 1) || jsGtB page (s.document.map (·.total_pages)) then
    some (s, none)
  else
    match s.document with
    | some d => some ({ s with currentPage := page }, some (d.filename, page))
    | none => none

/-! ## Asynchronous fetch interleaving

One event-loop turn at a time: `goTo` runs the synchronous prefix of
`goToPage`; a `fetchOk`/`fetchFail` event is the continuation of
`loadPageChunks` running when the network response for a previously
issued request arrives.  On success the handler runs
`setChunks(data.chunks)` unconditionally — there is no generation
counter or staleness check; on failure it only logs
(`console.error`), touching no state. -/

structure AsyncState where
  vs : ViewerState
  pending : List FetchReq
deriving Repr, DecidableEq

inductive Ev where
  | goTo (page : Option Int)
  | fetchOk (req : FetchReq) (chunks : List Chunk)
  | fetchFail (req : FetchReq)
deriving Repr, DecidableEq

/-- One event-loop step.  `none` = uncaught exception; resolution
events fire only for requests actually in flight. -/
def stepEv (a : AsyncState) (e : Ev) : Option AsyncState :=
  match e with
  | .goTo p =>
    (goToPage a.vs p).map fun r =>
      { vs := r.1, pending := a.pending ++ r.2.toList }
  | .fetchOk req cs =>
    if req ∈ a.pending then
      some { vs := { a.vs with chunks := cs }, pending := a.pending.erase req }
    else none
  | .fetchFail req =>
    if req ∈ a.pending then
      some { a with pending := a.pending.erase req }
    else none

/-- Run a sequence of event-loop steps. -/
def runEvents (a : AsyncState) (evs : List Ev) : Option AsyncState :=
  evs.foldlM stepEv a

theorem runEvents_nil (a : AsyncState) : runEvents a [] = some a := rfl

theorem runEvents_cons (a : AsyncState) (e : Ev) (evs : List Ev) :
    runEvents a (e :: evs) = (stepEv a e).bind (fun a1 => runEvents a1 evs) := by
  unfold runEvents
  rw [List.foldlM_cons]
  rfl

/-! ## Citation Marker Resolver
(`RAGResponse.jsx` `renderAnswerWithLinks`)

`answer.split(/(\[\d+\])/g)` splits the answer at every maximal
bracketed-digit marker, keeping the markers (capturing group), then
each part is re-matched against `/\[(\d+)\]/` and looked up in the
citation list. -/

/-- Leftmost match of the pattern ‹`[` digits⁺ `]`› starting right at
the given position: on success, the digit run and the remainder after
the closing bracket. -/
def tryMarkerAt (cs : List Char) : Option (List Char × List Char) :=
  match cs.takeWhile Char.isDigit, cs.dropWhile Char.isDigit with
  | d :: ds, ']' :: rest => some (d :: ds, rest)
  | _, _ => none

/-- Leftmost match of `/\[(\d+)\]/` in a character list: the text
before the match, the captured digits, and the text after. -/
def findMarker : List Char → Option (List Char × List Char × List Char)
  | [] => none
  | c :: cs =>
    match (if c = '[' then tryMarkerAt cs else none) with
    | some (ds, rest) => some ([], ds, rest)
    | none =>
      match findMarker cs with
      | some (b, ds, a) => some (c :: b, ds, a)
      | none => none

theorem tryMarkerAt_sound {cs ds rest : List Char}
    (h : tryMarkerAt cs = some (ds, rest)) :
    cs = ds ++ ']' :: rest ∧ ds ≠ [] ∧ ∀ c ∈ ds, c.isDigit = true := by
  unfold tryMarkerAt at h
  split at h
  next d ds' rest' heq1 heq2 =>
    cases h
    refine ⟨?_, by simp, ?_⟩
    · conv_lhs => rw [← List.takeWhile_append_dropWhile (p := Char.isDigit) (l := cs)]
      rw [heq1, heq2]
    · intro c hc
      rw [← heq1] at hc
      exact List.mem_takeWhile_imp hc
  next => exact absurd h (by simp)

theorem findMarker_sound {s b ds a : List Char}
    (h : findMarker s = some (b, ds, a)) :
    s = b ++ '[' :: ds ++ ']' :: a ∧ ds ≠ [] ∧ ∀ c ∈ ds, c.isDigit = true := by
  induction s generalizing b with
  | nil => simp [findMarker] at h
  | cons c cs ih =>
    unfold findMarker at h
    split at h
    next heq =>
      split at heq
      next hc =>
        cases h
        obtain ⟨h1, h2, h3⟩ := tryMarkerAt_sound heq
        exact ⟨by simp [hc, h1], h2, h3⟩
      next => exact absurd heq (by simp)
    next =>
      split at h
      next b' ds' a' heq2 =>
        cases h
        obtain ⟨h1, h2, h3⟩ := ih heq2
        exact ⟨by simp [h1], h2, h3⟩
      next => exact absurd h (by simp)

theorem takeWhile_sat_append {p : Char → Bool} {d : List Char} (x : Char)
    (t : List Char) (hd : ∀ c ∈ d, p c = true) (hx : p x = false) :
    (d ++ x :: t).takeWhile p = d ∧ (d ++ x :: t).dropWhile p = x :: t := by
  induction d with
  | nil => simp [List.takeWhile, List.dropWhile, hx]
  | cons c cs ih =>
    have hc : p c = true := hd c (by simp)
    have := ih (fun c hc => hd c (by simp [hc]))
    simp [List.takeWhile, List.dropWhile, hc, this.1, this.2]

theorem tryMarkerAt_append {xs ds r : List Char} (ys : List Char)
    (h : tryMarkerAt xs = some (ds, r)) :
    tryMarkerAt (xs ++ ys) = some (ds, r ++ ys) := by
  obtain ⟨h1, h2, h3⟩ := tryMarkerAt_sound h
  subst h1
  have hnd : Char.isDigit ']' = false := by decide
  obtain ⟨ht, hdr⟩ := takeWhile_sat_append (p := Char.isDigit) ']' (r ++ ys) h3 hnd
  have hx : (ds ++ ']' :: r) ++ ys = ds ++ ']' :: (r ++ ys) := by simp
  rw [hx]
  cases ds with
  | nil => exact absurd rfl h2
  | cons d₀ ds₀ =>
    unfold tryMarkerAt
    rw [ht, hdr]
    rfl

theorem findMarker_before_none {s b ds a : List Char}
    (h : findMarker s = some (b, ds, a)) : findMarker b = none := by
  induction s generalizing b with
  | nil => simp [findMarker] at h
  | cons c cs ih =>
    unfold findMarker at h
    split at h
    next heq => cases h; simp [findMarker]
    next heq =>
      split at h
      next b' ds' a' heq2 =>
        cases h
        have hb' := ih heq2
        unfold findMarker
        rw [hb']
        have : (if c = '[' then tryMarkerAt b' else none) = none := by
          split
          next hc =>
            subst hc
            cases htry : tryMarkerAt b' with
            | none => rfl
            | some pr =>
              obtain ⟨d', r'⟩ := pr
              obtain ⟨hcs, -, -⟩ := findMarker_sound heq2
              rw [hcs] at heq
              have heq' : tryMarkerAt (b' ++ '[' :: ds ++ ']' :: a) = none := by
                simpa using heq
              have hcontra := tryMarkerAt_append ('[' :: ds ++ ']' :: a) htry
              simp only [List.append_assoc, List.cons_append] at heq' hcontra
              rw [hcontra] at heq'
              exact absurd heq' (by simp)
          next => rfl
        rw [this]
      next => exact absurd h (by simp)

theorem findMarker_length {s b ds a : List Char}
    (h : findMarker s = some (b, ds, a)) : a.length < s.length := by
  obtain ⟨h1, -, -⟩ := findMarker_sound h
  subst h1
  simp
  omega

/-- Fuel-driven worker for the capturing split (structurally
recursive, so concrete instances evaluate inside proofs). -/
def splitPartsFuel : Nat → List Char → List (List Char)
  | 0, s => [s]
  | fuel + 1, s =>
    match findMarker s with
    | none => [s]
    | some (b, ds, a) => b :: ('[' :: ds ++ [']']) :: splitPartsFuel fuel a

theorem splitPartsFuel_congr {f1 f2 : Nat} (s : List Char)
    (h1 : s.length ≤ f1) (h2 : s.length ≤ f2) :
    splitPartsFuel f1 s = splitPartsFuel f2 s := by
  induction f1 generalizing f2 s with
  | zero =>
    have hs : s = [] := List.eq_nil_of_length_eq_zero (Nat.le_zero.mp h1)
    subst hs
    cases f2 with
    | zero => rfl
    | succ f2 => simp [splitPartsFuel, findMarker]
  | succ f1 ih =>
    cases f2 with
    | zero =>
      have hs : s = [] := List.eq_nil_of_length_eq_zero (Nat.le_zero.mp h2)
      subst hs
      simp [splitPartsFuel, findMarker]
    | succ f2 =>
      simp only [splitPartsFuel]
      cases hfm : findMarker s with
      | none => rfl
      | some t =>
        obtain ⟨b, ds, a⟩ := t
        have hlen := findMarker_length hfm
        dsimp only
        rw [@ih f2 a (by omega) (by omega)]

/-- `answer.split(/(\[\d+\])/g)`: the list of parts, literal runs and
markers alternating, whose concatenation is the original string
(capturing-group split keeps the separators). -/
def splitParts (s : List Char) : List (List Char) :=
  splitPartsFuel s.length s

theorem splitParts_eq (s : List Char) :
    splitParts s =
      match findMarker s with
      | none => [s]
      | some (b, ds, a) => b :: ('[' :: ds ++ [']']) :: splitParts a := by
  cases hfm : findMarker s with
  | none =>
    unfold splitParts
    cases hs : s.length with
    | zero => rfl
    | succ n => simp [splitPartsFuel, hfm]
  | some t =>
    obtain ⟨b, ds, a⟩ := t
    have hlen := findMarker_length hfm
    unfold splitParts
    cases hs : s.length with
    | zero => omega
    | succ n =>
      simp only [splitPartsFuel, hfm]
      rw [@splitPartsFuel_congr n a.length a (by omega) (Nat.le_refl _)]

theorem splitParts_flatten (s : List Char) : (splitParts s).flatten = s := by
  generalize hn : s.length = n
  induction n using Nat.strong_induction_on generalizing s with
  | _ n ih =>
    subst hn
    rw [splitParts_eq]
    cases hfm : findMarker s with
    | none => simp
    | some t =>
      obtain ⟨b, ds, a⟩ := t
      obtain ⟨h1, -, -⟩ := findMarker_sound hfm
      have ha := ih a.length (findMarker_length hfm) a rfl
      subst h1
      simp [ha]

/-- A display segment produced by `renderAnswerWithLinks`: a literal
text run (`<span>{part}</span>`) or a resolved citation link
(`<a href={citation.deep_link}>[{citationNumber}]</a>`). -/
inductive RSeg where
  | lit (text : List Char)
  | link (text : List Char) (href : String) (c : Citation)
deriving Repr, DecidableEq

/-- The body of the `parts.map` callback: re-match the part against
`/\[(\d+)\]/`; on a match, parse the captured digits and look up the
citation by number; emit a link showing `[` + the parsed number + `]`,
or fall through to a literal run. -/
def renderPart (citations : List Citation) (part : List Char) : RSeg :=
  match findMarker part with
  | some (_, ds, _) =>
    match citations.find? (fun c => c.citation_number == (digitsToNat ds : Int)) with
    | some c => .link ('[' :: natToDecChars (digitsToNat ds) ++ [']']) c.deep_link c
    | none => .lit part
  | none => .lit part

/-- `renderAnswerWithLinks` (`RAGResponse.jsx`): split the answer at
citation markers and render each part. -/
def renderAnswerWithLinks (answer : List Char) (citations : List Citation) :
    List RSeg :=
  (splitParts answer).map (renderPart citations)

/-- The text a segment contributes to the rendered answer. -/
def segText : RSeg → List Char
  | .lit t => t
  | .link t _ _ => t

/-- Concatenated text of a rendered segment sequence. -/
def segsText (segs : List RSeg) : List Char := (segs.map segText).flatten

/-! ## Decimal digit strings: canonicity lemmas -/

theorem isDigit_toNat_bounds {c : Char} (h : c.isDigit = true) :
    48 ≤ c.toNat ∧ c.toNat ≤ 57 := by
  simp only [Char.isDigit, Bool.and_eq_true, decide_eq_true_eq] at h
  obtain ⟨h1, h2⟩ := h
  exact ⟨UInt32.le_toNat_of_le (by norm_num [UInt32.size]) h1,
         UInt32.toNat_le_of_le (by norm_num [UInt32.size]) h2⟩

theorem digitChr_digitVal {c : Char} (h : c.isDigit = true) :
    digitChr (digitVal c) = c := by
  obtain ⟨h1, _⟩ := isDigit_toNat_bounds h
  unfold digitChr digitVal
  rw [Nat.add_sub_cancel' h1]
  exact Char.ofNat_toNat c

theorem digitVal_lt_ten {c : Char} (h : c.isDigit = true) : digitVal c < 10 := by
  obtain ⟨-, h2⟩ := isDigit_toNat_bounds h
  unfold digitVal
  omega

theorem digitVal_digitChr {d : Nat} (h : d < 10) : digitVal (digitChr d) = d := by
  interval_cases d <;> decide

theorem digitChr_isDigit {d : Nat} (h : d < 10) : (digitChr d).isDigit = true := by
  interval_cases d <;> decide

theorem digitsToNat_eq_ofDigits (ds : List Char) :
    digitsToNat ds = Nat.ofDigits 10 ((ds.map digitVal).reverse) := by
  suffices h : ∀ (a : Nat),
      ds.foldl (fun a c => a * 10 + digitVal c) a =
        a * 10 ^ ds.length + Nat.ofDigits 10 ((ds.map digitVal).reverse) by
    have := h 0
    simpa [digitsToNat] using this
  induction ds with
  | nil => simp [Nat.ofDigits]
  | cons c t ih =>
    intro a
    simp only [List.foldl_cons, List.map_cons, List.reverse_cons, List.length_cons]
    rw [ih, Nat.ofDigits_append]
    simp [Nat.ofDigits]
    ring

theorem digitsToNat_natToDecChars (n : Nat) :
    digitsToNat (natToDecChars n) = n := by
  by_cases h0 : n = 0
  · subst h0; decide
  · unfold natToDecChars
    rw [if_neg h0, digitsToNat_eq_ofDigits, List.map_reverse, List.reverse_reverse,
        List.map_map]
    have hmap : (Nat.digits 10 n).map (digitVal ∘ digitChr) = Nat.digits 10 n := by
      conv_rhs => rw [← List.map_id (Nat.digits 10 n)]
      apply List.map_congr_left
      intro d hd
      exact digitVal_digitChr (Nat.digits_lt_base (by norm_num) hd)
    rw [hmap, Nat.ofDigits_digits]

theorem natToDecChars_ne_nil (n : Nat) : natToDecChars n ≠ [] := by
  unfold natToDecChars
  split
  · simp
  · simp only [ne_eq, List.reverse_eq_nil_iff, List.map_eq_nil_iff]
    exact Nat.digits_ne_nil_iff_ne_zero.mpr (by assumption)

theorem natToDecChars_all_digit (n : Nat) :
    ∀ c ∈ natToDecChars n, c.isDigit = true := by
  intro c hc
  unfold natToDecChars at hc
  split at hc
  · simp at hc; subst hc; decide
  · simp only [List.mem_reverse, List.mem_map] at hc
    obtain ⟨d, hd, rfl⟩ := hc
    exact digitChr_isDigit (Nat.digits_lt_base (by norm_num) hd)

/-- On a nonempty all-digit string with no leading zero, printing the
parsed value reproduces the string. -/
theorem natToDecChars_digitsToNat {ds : List Char} (hne : ds ≠ [])
    (hdig : ∀ c ∈ ds, c.isDigit = true)
    (hlead : ds.head? ≠ some '0' ∨ ds = ['0']) :
    natToDecChars (digitsToNat ds) = ds := by
  rcases hlead with hlead | rfl
  swap
  · decide
  · have hval : Nat.digits 10 (digitsToNat ds) = (ds.map digitVal).reverse := by
      rw [digitsToNat_eq_ofDigits]
      apply Nat.digits_ofDigits 10 (by norm_num)
      · intro l hl
        simp only [List.mem_reverse, List.mem_map] at hl
        obtain ⟨c, hc, rfl⟩ := hl
        exact digitVal_lt_ten (hdig c hc)
      · intro hne2
        rw [List.getLast_reverse]
        cases ds with
        | nil => exact absurd rfl hne
        | cons c t =>
          simp only [List.map_cons, List.head_cons]
          intro hzero
          have hc : c.isDigit = true := hdig c (by simp)
          have : c = digitChr 0 := by
            rw [← digitChr_digitVal hc, hzero]
          simp only [List.head?_cons, ne_eq] at hlead
          exact hlead (by rw [this]; rfl)
    have hnz : digitsToNat ds ≠ 0 := by
      intro hz
      rw [hz] at hval
      simp only [Nat.digits_zero] at hval
      exact hne (by simpa using hval.symm)
    unfold natToDecChars
    rw [if_neg hnz, hval, List.map_reverse, List.reverse_reverse, List.map_map]
    conv_rhs => rw [← List.map_id ds]
    apply List.map_congr_left
    intro c hc
    exact digitChr_digitVal (hdig c hc)

theorem takeWhile_all {p : Char → Bool} {l : List Char}
    (h : ∀ c ∈ l, p c = true) : l.takeWhile p = l := by
  induction l with
  | nil => rfl
  | cons c t ih =>
    rw [List.takeWhile_cons, if_pos (h c (by simp)), ih (fun c hc => h c (by simp [hc]))]

theorem isDigit_not_space {c : Char} (h : c.isDigit = true) : isJsSpace c = false := by
  obtain ⟨h1, -⟩ := isDigit_toNat_bounds h
  simp only [isJsSpace, Bool.or_eq_false_iff, beq_eq_false_iff_ne, ne_eq]
  refine ⟨⟨⟨?_, ?_⟩, ?_⟩, ?_⟩ <;> rintro rfl <;> exact absurd h1 (by decide)

theorem parseSign_digit {c : Char} (t : List Char) (h : c.isDigit = true) :
    parseSign (c :: t) = (1, c :: t) := by
  obtain ⟨h1, -⟩ := isDigit_toNat_bounds h
  have hm : ¬c = '-' := by rintro rfl; exact absurd h1 (by decide)
  have hp : ¬c = '+' := by rintro rfl; exact absurd h1 (by decide)
  simp only [parseSign, if_neg hm, if_neg hp]

/-- `parseInt` on a nonempty pure-digit string returns its value. -/
theorem parseIntChars_digits {cs : List Char} (hne : cs ≠ [])
    (hdig : ∀ c ∈ cs, c.isDigit = true) :
    parseIntChars cs = some ((digitsToNat cs : Int)) := by
  cases cs with
  | nil => exact absurd rfl hne
  | cons c t =>
    have hc : c.isDigit = true := hdig c (by simp)
    have hdw : List.dropWhile isJsSpace (c :: t) = c :: t := by
      rw [List.dropWhile_cons, if_neg (by simp [isDigit_not_space hc])]
    have hps : parseSign (c :: t) = (1, c :: t) := parseSign_digit t hc
    have htw : List.takeWhile Char.isDigit (c :: t) = c :: t := takeWhile_all hdig
    simp only [parseIntChars, hdw, hps, htw]
    rw [if_neg (by simp)]
    simp

theorem parseIntChars_natToDecChars (n : Nat) :
    parseIntChars (natToDecChars n) = some ((n : Int)) := by
  rw [parseIntChars_digits (natToDecChars_ne_nil n) (natToDecChars_all_digit n),
      digitsToNat_natToDecChars]

theorem parseIntChars_intToDecChars (i : Int) :
    parseIntChars (intToDecChars i) = some i := by
  by_cases hneg : i < 0
  · unfold intToDecChars
    rw [if_pos hneg]
    have hall := natToDecChars_all_digit i.natAbs
    have hdw : List.dropWhile isJsSpace ('-' :: natToDecChars i.natAbs) =
        '-' :: natToDecChars i.natAbs := by
      rw [List.dropWhile_cons, if_neg (by decide)]
    have hps : parseSign ('-' :: natToDecChars i.natAbs) =
        (-1, natToDecChars i.natAbs) := by
      simp [parseSign]
    have htw : List.takeWhile Char.isDigit (natToDecChars i.natAbs) =
        natToDecChars i.natAbs := takeWhile_all hall
    simp only [parseIntChars, hdw, hps, htw]
    rw [if_neg (by simp [natToDecChars_ne_nil])]
    rw [digitsToNat_natToDecChars]
    congr 1
    omega
  · unfold intToDecChars
    rw [if_neg hneg, parseIntChars_natToDecChars]
    congr 1
    omega

theorem intToDecStr_ne_empty (i : Int) : intToDecStr i ≠ "" := by
  unfold intToDecStr intToDecChars
  split
  · simp [String.ext_iff]
  · have := natToDecChars_ne_nil i.natAbs
    simp [String.ext_iff]
    exact this

theorem parseIntJS_intToDecStr (i : Int) : parseIntJS (intToDecStr i) = some i := by
  unfold parseIntJS intToDecStr
  exact parseIntChars_intToDecChars i

/-! ## Highlight scroll effect
(`DocumentViewer.jsx` lines 86–95 and `renderChunk`)

After every commit whose `[highlightChunkId, chunks]` dependency pair
differs from the previous effect run (React compares the entries with
`Object.is`, so a freshly constructed chunks array always differs),
the effect runs: it schedules one `setTimeout(..., 300)` scroll iff
`highlightChunkId` is non-null and `highlightedChunkRef.current` is
non-null.  The ref is attached during render to the chunk whose
`chunk_id` equals `highlightChunkId`, and reset to null when no
rendered chunk matches. -/

/-- Whether `highlightedChunkRef.current` is non-null after rendering
`chunks` (some rendered chunk carries the matching id). -/
def refCurrent (highlight : Option String) (chunks : List Chunk) : Bool :=
  match highlight with
  | some h => chunks.any (fun c => c.chunk_id == h)
  | none => false

/-- State of the effect machinery: dependency pair of the last run
(`none` before the first run; the `Nat` is the identity token of the
chunks array) and the number of scrolls scheduled so far. -/
structure EffState where
  lastDeps : Option (Option String × Nat)
  scheduled : Nat
deriving Repr, DecidableEq

/-- One commit with highlight `h`, chunks array identity `cid` and
contents `cs`: the effect re-runs iff the dependency pair changed, and
schedules a scroll iff the highlight is non-null and some chunk
matches it. -/
def runEffect (h : Option String) (cid : Nat) (cs : List Chunk)
    (st : EffState) : EffState :=
  if st.lastDeps = some (h, cid) then st
  else
    { lastDeps := some (h, cid)
      scheduled := st.scheduled + (if h.isSome && refCurrent h cs then 1 else 0) }

/-- Run the effect over a sequence of successful chunk loads
(`setChunks(data.chunks)` allocates a fresh array each time, so each
load carries a fresh identity token). -/
def runLoads (h : Option String) (loads : List (Nat × List Chunk))
    (st : EffState) : EffState :=
  loads.foldl (fun st l => runEffect h l.1 l.2 st) st

/-- The number of loads in a sequence that contain the highlight
target. -/
def countMatching (h : Option String) (loads : List (Nat × List Chunk)) : Nat :=
  (loads.filter (fun l => h.isSome && refCurrent h l.2)).length

/-! ## Deep Link Codec — encode side -/

/-- A navigation target with the shape the spec requires of codec
inputs (§3). -/
structure NavTarget where
  document_id : String
  page : Int
  paragraph : Int
  highlight_chunk_id : Option String
deriving Repr, DecidableEq

/-- Modelled from the spec: the encoder half of the Deep Link Codec is
not part of the frontend sources (citation `deep_link` strings are
produced by the backend); per §4.2/§6 it emits the canonical shape
`/viewer/{document_id}?page={int}&paragraph={int}&highlight={chunk_id}`
with the identifier percent-encoded.  The percent codec is the
browser/router layer, inverse by contract, so the link is represented
structurally: the path segment carrying the identifier and the query
map carrying the decoded parameter values. -/
def encodeTarget (t : NavTarget) : String × QueryParams :=
  (t.document_id,
    { page := some (intToDecStr t.page)
      paragraph := some (intToDecStr t.paragraph)
      highlight := t.highlight_chunk_id })

/-! ## Claim theorems -/

/-! ### C1 — stale in-flight fetch results -/

/-- Chunks of page 1 in the overlapping-fetch scenario. -/
def pageOneChunk : Chunk := ⟨"c1", 1, 0, "paragraph", "page one text"⟩

/-- Chunks of page 2 in the overlapping-fetch scenario. -/
def pageTwoChunk : Chunk := ⟨"c2", 2, 0, "paragraph", "page two text"⟩

/-- Controller state right after the initial load of page 1 issued its
chunk fetch, which is still in flight. -/
def raceStart : AsyncState :=
  ⟨⟨some ⟨"doc.pdf", 3⟩, [], some 1, false, none⟩, [("doc.pdf", some 1)]⟩

/-- Page 2 is requested while page 1's fetch is in flight; page 2's
response arrives first, then page 1's stale response. -/
def raceTrace : List Ev :=
  [Ev.goTo (some 2),
   Ev.fetchOk ("doc.pdf", some 2) [pageTwoChunk],
   Ev.fetchOk ("doc.pdf", some 1) [pageOneChunk]]

/-- C1: the claim states that after loading page p and requesting page
p+1 before p's fetch resolves, the displayed chunks are those of page
p+1, never p's.  The code has no generation counter: `loadPageChunks`
applies `setChunks(data.chunks)` whenever a response arrives, so the
stale page-1 response overwrites page 2's chunks — the controller ends
with `currentPage = 2` while displaying page 1's chunks. -/
theorem stale_fetch_overwrites_newer_page :
    (runEvents raceStart raceTrace).map (fun x => (x.vs.currentPage, x.vs.chunks)) =
      some (some 2, [pageOneChunk]) := by decide

/-! ### C6 — chunk fetch failure is silently swallowed -/

/-- A loaded controller state with one in-flight chunk fetch. -/
def failPendingState : AsyncState :=
  ⟨⟨some ⟨"doc.pdf", 3⟩, [pageOneChunk], some 2, false, none⟩, [("doc.pdf", some 2)]⟩

/-- C6 counterexample: the claim states a failed chunk fetch drives the
controller into a user-visible `Error(ChunkFetchError)` state.  In the
code `loadPageChunks` catches the failure and only `console.error`s
it: the whole visible state (including `error`, which stays `none`) is
unchanged, so no user-visible error state is ever entered. -/
theorem chunk_fetch_failure_sets_no_error :
    (runEvents failPendingState [Ev.fetchFail ("doc.pdf", some 2)]).map (·.vs) =
      some failPendingState.vs ∧
    failPendingState.vs.error = none := by decide

/-- C6 amended: a failed chunk fetch is caught and logged only — it
leaves the entire visible controller state (chunks, current page, and
the error field) unchanged, merely retiring the in-flight request; the
controller remains navigable, but the failure is silent apart from the
console log. -/
theorem fetch_failure_swallowed (a : AsyncState) (req : FetchReq)
    (hreq : req ∈ a.pending) :
    stepEv a (.fetchFail req) = some ⟨a.vs, a.pending.erase req⟩ := by
  unfold stepEv
  dsimp only
  rw [if_pos hreq]

/-- Witness for `fetch_failure_swallowed`. -/
theorem fetch_failure_swallowed_witness :
    stepEv failPendingState (.fetchFail ("doc.pdf", some 2)) =
      some ⟨failPendingState.vs, []⟩ :=
  fetch_failure_swallowed failPendingState ("doc.pdf", some 2) (by decide)

/-! ### C7 — out-of-range explicit navigation is rejected -/

/-- C7: with a loaded document, `goToPage(n)` for `n < 1` or
`n > total_pages` returns before touching any state: the result is the
unchanged state and no fetch is issued. -/
theorem goToPage_out_of_range_rejected (s : ViewerState) (d : Document) (n : Int)
    (hd : s.document = some d) (hn : n < 1 ∨ d.total_pages < n) :
    goToPage s (some n) = some (s, none) := by
  have hguard :
      (jsLtB (some n) (some 1) || jsGtB (some n) (s.document.map (·.total_pages))) =
        true := by
    rcases hn with hn | hn
    · simp [jsLtB, hn]
    · simp [jsGtB, hd, hn]
  unfold goToPage
  rw [hguard]
  simp

/-- Witness for `goToPage_out_of_range_rejected`. -/
theorem goToPage_out_of_range_rejected_witness :
    goToPage ⟨some ⟨"report.pdf", 3⟩, [], some 1, false, none⟩ (some 5) =
      some (⟨some ⟨"report.pdf", 3⟩, [], some 1, false, none⟩, none) :=
  goToPage_out_of_range_rejected _ ⟨"report.pdf", 3⟩ 5 rfl (Or.inr (by decide))

/-! ### C10 — failed fetch after in-range goToPage leaves chunks stale -/

/-- C10: an in-range `goToPage(n)` first sets `currentPage = n`, then
issues the fetch; if that fetch fails, the failure is swallowed and
the previously displayed chunks stay on screen, so page number and
chunk content refer to different pages. -/
theorem goToPage_fetch_failure_keeps_old_chunks (a : AsyncState) (d : Document)
    (n : Int) (hd : a.vs.document = some d) (h1 : 1 ≤ n) (h2 : n ≤ d.total_pages) :
    (runEvents a [Ev.goTo (some n), Ev.fetchFail (d.filename, some n)]).map
        (fun x => (x.vs.currentPage, x.vs.chunks, x.vs.error)) =
      some (some n, a.vs.chunks, a.vs.error) := by
  have hguard :
      (jsLtB (some n) (some 1) || jsGtB (some n) (a.vs.document.map (·.total_pages))) =
        false := by
    rw [hd]
    simp only [Option.map, jsLtB, jsGtB]
    rw [Bool.or_eq_false_iff]
    constructor <;> rw [decide_eq_false_iff_not] <;> omega
  have hgo : goToPage a.vs (some n) =
      some (⟨some d, a.vs.chunks, some n, a.vs.loading, a.vs.error⟩,
        some (d.filename, some n)) := by
    unfold goToPage
    rw [hguard, if_neg (by simp), hd]
  have hstep1 : stepEv a (.goTo (some n)) =
      some ⟨⟨some d, a.vs.chunks, some n, a.vs.loading, a.vs.error⟩,
            a.pending ++ [(d.filename, some n)]⟩ := by
    unfold stepEv
    dsimp only
    rw [hgo]
    rfl
  have hmem : (d.filename, some n) ∈ a.pending ++ [(d.filename, some n)] := by simp
  have hstep2 : stepEv ⟨⟨some d, a.vs.chunks, some n, a.vs.loading, a.vs.error⟩,
        a.pending ++ [(d.filename, some n)]⟩ (.fetchFail (d.filename, some n)) =
      some ⟨⟨some d, a.vs.chunks, some n, a.vs.loading, a.vs.error⟩,
            (a.pending ++ [(d.filename, some n)]).erase (d.filename, some n)⟩ := by
    unfold stepEv
    dsimp only
    rw [if_pos hmem]
  rw [runEvents_cons, hstep1]
  dsimp only [Option.bind]
  rw [runEvents_cons, hstep2]
  dsimp only [Option.bind]
  rfl

/-- Witness for `goToPage_fetch_failure_keeps_old_chunks`. -/
theorem goToPage_fetch_failure_keeps_old_chunks_witness :
    (runEvents ⟨⟨some ⟨"doc.pdf", 3⟩, [pageOneChunk], some 1, false, none⟩, []⟩
        [Ev.goTo (some 2), Ev.fetchFail ("doc.pdf", some 2)]).map
        (fun x => (x.vs.currentPage, x.vs.chunks, x.vs.error)) =
      some (some 2, [pageOneChunk], none) :=
  goToPage_fetch_failure_keeps_old_chunks
    ⟨⟨some ⟨"doc.pdf", 3⟩, [pageOneChunk], some 1, false, none⟩, []⟩
    ⟨"doc.pdf", 3⟩ 2 rfl (by decide) (by decide)

/-! ### C3 — document resolution precedence -/

theorem find?_first_match {α : Type} (p : α → Bool) (pre post : List α) (e : α)
    (hpre : ∀ x ∈ pre, p x = false) (he : p e = true) :
    (pre ++ e :: post).find? p = some e := by
  induction pre with
  | nil => simp [List.find?_cons_of_pos, he]
  | cons a l ih =>
    have ha : ¬p a = true := by rw [hpre a (by simp)]; simp
    rw [List.cons_append, List.find?_cons_of_neg _ ha]
    exact ih (fun x hx => hpre x (by simp [hx]))

/-- C3 counterexample: the claim states exact identifier matches take
precedence.  With catalog `["abc", "b"]` and identifier `"b"`, the
spec's three-tier precedence selects the exact match `"b"`, but the
code's single `find` with the disjunctive substring test returns the
earlier fuzzy match `"abc"`. -/
theorem resolution_ignores_exact_match_precedence :
    findDocument [⟨"abc", 1⟩, ⟨"b", 1⟩] "b" = some ⟨"abc", 1⟩ ∧
    findDocumentSpecPrecedence [⟨"abc", 1⟩, ⟨"b", 1⟩] "b" = some ⟨"b", 1⟩ ∧
    findDocument [⟨"abc", 1⟩, ⟨"b", 1⟩] "b" ≠
      findDocumentSpecPrecedence [⟨"abc", 1⟩, ⟨"b", 1⟩] "b" := by decide

/-- C3 amended: resolution is a single left-to-right pass returning the
first catalog entry satisfying
`filename.includes(docId) || docId.includes(filename)`; an earlier
fuzzy match wins even when a later entry matches exactly (here `post`
is unconstrained and may contain an exact match), and when no entry
matches the controller enters the `Error(DocumentNotFound)` state. -/
theorem first_disjunctive_match_wins (pre post : List Document) (e : Document)
    (docId : String) (t : DecodedTarget) (s : ViewerState)
    (hpre : ∀ x ∈ pre, docMatch docId x = false)
    (he : docMatch docId e = true) :
    findDocument (pre ++ e :: post) docId = some e ∧
    (loadDocument (pre ++ e :: post) docId t s).1.error = s.error ∧
    findDocument pre docId = none ∧
    (loadDocument pre docId t s).1.error = some docNotFoundMsg := by
  have hsome : findDocument (pre ++ e :: post) docId = some e :=
    find?_first_match (docMatch docId) pre post e hpre he
  have hnone : findDocument pre docId = none := by
    unfold findDocument
    rw [List.find?_eq_none]
    intro x hx
    simp [hpre x hx]
  refine ⟨hsome, ?_, hnone, ?_⟩
  · unfold loadDocument
    rw [hsome]
  · unfold loadDocument
    rw [hnone]

/-- Witness for `first_disjunctive_match_wins`: catalog
`["xyz", "abc", "b"]`, identifier `"b"` — `"xyz"` does not match,
`"abc"` matches fuzzily and wins although `"b"` matches exactly later;
on the no-match catalog `["xyz"]` the error state is entered. -/
theorem first_disjunctive_match_wins_witness :
    findDocument [⟨"xyz", 2⟩, ⟨"abc", 1⟩, ⟨"b", 1⟩] "b" = some ⟨"abc", 1⟩ ∧
    (loadDocument [⟨"xyz", 2⟩, ⟨"abc", 1⟩, ⟨"b", 1⟩] "b"
        ⟨"b", some 1, some 0, none⟩ ⟨none, [], some 1, true, none⟩).1.error = none ∧
    findDocument [⟨"xyz", 2⟩] "b" = none ∧
    (loadDocument [⟨"xyz", 2⟩] "b" ⟨"b", some 1, some 0, none⟩
        ⟨none, [], some 1, true, none⟩).1.error = some docNotFoundMsg :=
  first_disjunctive_match_wins [⟨"xyz", 2⟩] [⟨"b", 1⟩] ⟨"abc", 1⟩ "b"
    ⟨"b", some 1, some 0, none⟩ ⟨none, [], some 1, true, none⟩
    (by decide) (by decide)

/-! ### C5 — out-of-range deep-link pages are not clamped -/

/-- C5 counterexample: the claim states a deep-link page outside
`[1, total_pages]` is clamped before display and fetch.  With the only
document having 3 pages and a deep link asking for page 5, the code
stores `currentPage = 5` (not the clamped 3) and fetches page 5. -/
theorem out_of_range_page_not_clamped :
    (loadDocument [⟨"policy.pdf", 3⟩] "policy.pdf"
        ⟨"policy.pdf", some 5, some 0, none⟩ ⟨none, [], some 1, true, none⟩).1.currentPage =
      some 5 ∧
    (loadDocument [⟨"policy.pdf", 3⟩] "policy.pdf"
        ⟨"policy.pdf", some 5, some 0, none⟩ ⟨none, [], some 1, true, none⟩).2 =
      some ("policy.pdf", some 5) ∧
    some (5 : Int) ≠ some (3 : Int) := by decide

/-- C5 amended: when the document resolves, the decoded target page is
used as-is — stored as the displayed page and fetched — with no
clamping into `[1, total_pages]`; no error state is entered (the error
field is untouched). -/
theorem deep_link_page_used_unclamped (catalog : List Document) (docId : String)
    (t : DecodedTarget) (s : ViewerState) (d : Document) (p : Int)
    (hfind : findDocument catalog docId = some d)
    (hp : t.page = some p) (hout : p < 1 ∨ d.total_pages < p) :
    (loadDocument catalog docId t s).1.currentPage = some p ∧
    (loadDocument catalog docId t s).2 = some (d.filename, some p) ∧
    (loadDocument catalog docId t s).1.error = s.error := by
  unfold loadDocument
  rw [hfind]
  exact ⟨by rw [← hp], by rw [← hp], rfl⟩

/-- Witness for `deep_link_page_used_unclamped`. -/
theorem deep_link_page_used_unclamped_witness :
    (loadDocument [⟨"policy.pdf", 3⟩] "policy.pdf"
        ⟨"policy.pdf", some 7, some 0, none⟩ ⟨none, [], some 1, true, none⟩).1.currentPage =
      some 7 ∧
    (loadDocument [⟨"policy.pdf", 3⟩] "policy.pdf"
        ⟨"policy.pdf", some 7, some 0, none⟩ ⟨none, [], some 1, true, none⟩).2 =
      some ("policy.pdf", some 7) ∧
    (loadDocument [⟨"policy.pdf", 3⟩] "policy.pdf"
        ⟨"policy.pdf", some 7, some 0, none⟩ ⟨none, [], some 1, true, none⟩).1.error =
      none :=
  deep_link_page_used_unclamped [⟨"policy.pdf", 3⟩] "policy.pdf"
    ⟨"policy.pdf", some 7, some 0, none⟩ ⟨none, [], some 1, true, none⟩
    ⟨"policy.pdf", 3⟩ 7 (by decide) rfl (Or.inr (by decide))

/-! ### C2 — decode defaults, but no clamping -/

/-- C2 counterexample: the claim states `page=0` is clamped to 1 and a
non-numeric `paragraph` defaults to 0.  Decoding
`/viewer/policy.pdf?page=0&paragraph=abc&highlight=c9` actually yields
`page = 0` (no clamping anywhere in the component) and
`paragraph = NaN` (`parseInt('abc')`), not the claimed
`{page: 1, paragraph: 0}`. -/
theorem decode_no_clamp_no_paragraph_default :
    decodeTarget "policy.pdf" ⟨some "0", some "abc", some "c9"⟩ =
      ⟨"policy.pdf", some 0, none, some "c9"⟩ ∧
    (decodeTarget "policy.pdf" ⟨some "0", some "abc", some "c9"⟩).page ≠ some 1 ∧
    (decodeTarget "policy.pdf" ⟨some "0", some "abc", some "c9"⟩).paragraph ≠
      some 0 := by decide

/-- C2 amended: decoding is total and never throws; a missing `page`
defaults to 1, a missing `paragraph` defaults to 0 and a missing
`highlight` to null — but a zero or negative `page` is passed through
without clamping (the canonical decimal string of any `p ≤ 0` decodes
to `p` itself), and a non-numeric `paragraph` yields `NaN`, not 0; in
particular `/viewer/policy.pdf?page=0&paragraph=abc&highlight=c9`
decodes to page 0 with `NaN` paragraph. -/
theorem decode_defaults_without_clamping (docId : String) (hl : Option String)
    (p : Int) (hp : p ≤ 0) :
    decodeTarget docId ⟨none, none, hl⟩ = ⟨docId, some 1, some 0, hl⟩ ∧
    decodeTarget docId ⟨some (intToDecStr p), none, hl⟩ = ⟨docId, some p, some 0, hl⟩ ∧
    decodeTarget "policy.pdf" ⟨some "0", some "abc", some "c9"⟩ =
      ⟨"policy.pdf", some 0, none, some "c9"⟩ := by
  refine ⟨?_, ?_, by decide⟩
  · unfold decodeTarget jsOrDefault
    have h1 : parseIntJS "1" = some 1 := by decide
    have h0 : parseIntJS "0" = some 0 := by decide
    rw [h1, h0]
  · unfold decodeTarget jsOrDefault
    dsimp only
    rw [if_neg (intToDecStr_ne_empty p), parseIntJS_intToDecStr]
    have h0 : parseIntJS "0" = some 0 := by decide
    rw [h0]

/-- Witness for `decode_defaults_without_clamping`. -/
theorem decode_defaults_without_clamping_witness :
    decodeTarget "policy.pdf" ⟨none, none, some "c9"⟩ =
      ⟨"policy.pdf", some 1, some 0, some "c9"⟩ ∧
    decodeTarget "policy.pdf" ⟨some (intToDecStr 0), none, some "c9"⟩ =
      ⟨"policy.pdf", some 0, some 0, some "c9"⟩ ∧
    decodeTarget "policy.pdf" ⟨some "0", some "abc", some "c9"⟩ =
      ⟨"policy.pdf", some 0, none, some "c9"⟩ :=
  decode_defaults_without_clamping "policy.pdf" (some "c9") 0 (by decide)

/-! ### C8 — decode ∘ encode round trip -/

/-- C8: decoding the canonical link encoded from any navigation target
with valid fields recovers the target: the identifier is carried by
the path segment, the decimal `page`/`paragraph` parameters parse back
to the original integers (no defaulting fires on nonempty strings, no
clamping exists to disturb them), and the highlight passes through,
omitted exactly when null. -/
theorem decode_encode_roundtrip (t : NavTarget) (hid : t.document_id ≠ "")
    (hp : 1 ≤ t.page) (hq : 0 ≤ t.paragraph) :
    decodeTarget (encodeTarget t).1 (encodeTarget t).2 =
      ⟨t.document_id, some t.page, some t.paragraph, t.highlight_chunk_id⟩ := by
  unfold encodeTarget decodeTarget jsOrDefault
  dsimp only
  rw [if_neg (intToDecStr_ne_empty t.page), if_neg (intToDecStr_ne_empty t.paragraph),
    parseIntJS_intToDecStr, parseIntJS_intToDecStr]

/-- Witness for `decode_encode_roundtrip`. -/
theorem decode_encode_roundtrip_witness :
    decodeTarget (encodeTarget ⟨"policy.pdf", 2, 3, some "c9"⟩).1
        (encodeTarget ⟨"policy.pdf", 2, 3, some "c9"⟩).2 =
      ⟨"policy.pdf", some 2, some 3, some "c9"⟩ :=
  decode_encode_roundtrip ⟨"policy.pdf", 2, 3, some "c9"⟩ (by decide) (by decide)
    (by decide)

/-! ### C9 — scroll scheduling per chunk load -/

/-- The chunk carrying the cited highlight target. -/
def highlightChunk : Chunk := ⟨"c9", 1, 0, "paragraph", "cited passage"⟩

theorem runLoads_cons (h : Option String) (l : Nat × List Chunk)
    (rest : List (Nat × List Chunk)) (st : EffState) :
    runLoads h (l :: rest) st = runLoads h rest (runEffect h l.1 l.2 st) := rfl

/-- C9 counterexample: the claim states a repeated load of the same
page with the same highlight target schedules no additional scroll.
Two successive successful loads of the same chunks (fresh array
identity each time, as `setChunks(data.chunks)` always produces)
re-run the effect and schedule two scrolls, not one. -/
theorem repeated_load_schedules_again :
    (runLoads (some "c9") [(1, [highlightChunk]), (2, [highlightChunk])]
        ⟨some (some "c9", 0), 0⟩).scheduled = 2 ∧
    (runLoads (some "c9") [(1, [highlightChunk]), (2, [highlightChunk])]
        ⟨some (some "c9", 0), 0⟩).scheduled ≠ 1 := by decide

/-- C9 amended: every successful chunk load re-runs the effect (the
fresh chunks array changes the dependency pair), and exactly one
scroll is scheduled per load whose chunks contain the non-null
highlight target — so repeated loads of the same page re-schedule;
loads with no matching chunk, and a null highlight, schedule nothing
and raise no error. -/
theorem scroll_scheduled_once_per_matching_load (h : Option String)
    (loads : List (Nat × List Chunk)) (st : EffState)
    (hfresh : ∀ l ∈ loads, ∀ dep, st.lastDeps = some dep → dep.2 < l.1)
    (hsorted : List.Pairwise (fun a b => a.1 < b.1) loads) :
    (runLoads h loads st).scheduled = st.scheduled + countMatching h loads := by
  induction loads generalizing st with
  | nil => simp [runLoads, countMatching]
  | cons l rest ih =>
    obtain ⟨hhead, htail⟩ := List.pairwise_cons.mp hsorted
    have hne : st.lastDeps ≠ some (h, l.1) := by
      intro heq
      exact absurd (hfresh l (by simp) (h, l.1) heq) (by simp)
    have hrun : runEffect h l.1 l.2 st =
        ⟨some (h, l.1),
          st.scheduled + (if h.isSome && refCurrent h l.2 then 1 else 0)⟩ := by
      unfold runEffect
      rw [if_neg hne]
    rw [runLoads_cons, hrun]
    rw [ih ⟨some (h, l.1), _⟩
      (by
        intro l' hl' dep hdep
        injection hdep with hdep'
        rw [← hdep']
        exact hhead l' hl')
      htail]
    have : countMatching h (l :: rest) =
        (if h.isSome && refCurrent h l.2 then 1 else 0) + countMatching h rest := by
      unfold countMatching
      rw [List.filter_cons]
      split
      · simp only [List.length_cons]
        omega
      · simp
    rw [this]
    dsimp only
    omega

/-- Witness for `scroll_scheduled_once_per_matching_load`: one matching
load and one non-matching load after mount schedule exactly one
scroll. -/
theorem scroll_scheduled_once_per_matching_load_witness :
    (runLoads (some "c9") [(1, [highlightChunk]), (2, [pageOneChunk])]
        ⟨some (some "c9", 0), 0⟩).scheduled =
      0 + countMatching (some "c9") [(1, [highlightChunk]), (2, [pageOneChunk])] :=
  scroll_scheduled_once_per_matching_load (some "c9")
    [(1, [highlightChunk]), (2, [pageOneChunk])] ⟨some (some "c9", 0), 0⟩
    (by
      intro l hl dep hdep
      injection hdep with hdep'
      rw [← hdep']
      simp at hl
      rcases hl with hl | hl <;> rw [hl] <;> decide)
    (by simp)

/-! ### C4 — marker resolution reconstructs the answer text -/

theorem tryMarkerAt_digits {ds : List Char} (hne : ds ≠ [])
    (hdig : ∀ c ∈ ds, c.isDigit = true) :
    tryMarkerAt (ds ++ [']']) = some (ds, []) := by
  obtain ⟨ht, hd⟩ := takeWhile_sat_append (p := Char.isDigit) ']' [] hdig (by decide)
  cases ds with
  | nil => exact absurd rfl hne
  | cons c t =>
    unfold tryMarkerAt
    rw [ht, hd]
    rfl

theorem findMarker_marker_part {ds : List Char} (hne : ds ≠ [])
    (hdig : ∀ c ∈ ds, c.isDigit = true) :
    findMarker ('[' :: ds ++ [']']) = some ([], ds, []) := by
  simp only [findMarker, List.append_eq, if_true]
  rw [tryMarkerAt_digits hne hdig]

/-- Every part produced by the split is either marker-free or exactly
one bracketed nonempty digit run. -/
theorem splitParts_shape (s : List Char) :
    ∀ p ∈ splitParts s, findMarker p = none ∨
      ∃ ds, p = '[' :: ds ++ [']'] ∧ ds ≠ [] ∧ ∀ c ∈ ds, c.isDigit = true := by
  generalize hn : s.length = n
  induction n using Nat.strong_induction_on generalizing s with
  | _ n ih =>
    subst hn
    intro p hp
    rw [splitParts_eq] at hp
    cases hfm : findMarker s with
    | none =>
      rw [hfm] at hp
      simp only [List.mem_singleton] at hp
      subst hp
      exact Or.inl hfm
    | some t =>
      obtain ⟨b, ds, a⟩ := t
      rw [hfm] at hp
      simp only [List.mem_cons] at hp
      rcases hp with rfl | rfl | hp
      · exact Or.inl (findMarker_before_none hfm)
      · right
        obtain ⟨-, hne, hdig⟩ := findMarker_sound hfm
        exact ⟨ds, rfl, hne, hdig⟩
      · exact ih a.length (findMarker_length hfm) a rfl p hp

/-- Rendering never changes a part's text when the digit runs that
actually resolve to a citation are not zero-padded (the only way
`[{parseInt(d)}]` differs from `[d]`; an unresolved marker is emitted
literally whatever its digits look like). -/
theorem segText_renderPart (citations : List Citation) (p : List Char)
    (hshape : findMarker p = none ∨
      ∃ ds, p = '[' :: ds ++ [']'] ∧ ds ≠ [] ∧ ∀ c ∈ ds, c.isDigit = true)
    (hlead : ∀ b ds a, findMarker p = some (b, ds, a) →
      (citations.find?
        (fun c => c.citation_number == (digitsToNat ds : Int))).isSome = true →
      ds.head? ≠ some '0' ∨ ds = ['0']) :
    segText (renderPart citations p) = p := by
  rcases hshape with hnone | ⟨ds, rfl, hne, hdig⟩
  · unfold renderPart
    rw [hnone]
    rfl
  · have hfm : findMarker ('[' :: ds ++ [']']) = some ([], ds, []) :=
      findMarker_marker_part hne hdig
    unfold renderPart
    rw [hfm]
    dsimp only
    cases hfind :
        citations.find? (fun c => c.citation_number == (digitsToNat ds : Int)) with
    | none => rfl
    | some c =>
      dsimp only [segText]
      rw [natToDecChars_digitsToNat hne hdig
        (hlead [] ds [] hfm (by rw [hfind]; rfl))]

/-- The citation numbered 1, used in the marker scenarios. -/
def citationOne : Citation :=
  ⟨1, "c9", "policy.pdf", 2, 3, "/viewer/policy.pdf?page=2&paragraph=3&highlight=c9"⟩

theorem natToDecChars_one : natToDecChars 1 = ['1'] := by
  have h : Nat.digits 10 1 = [1] := by
    rw [Nat.digits_def' (by norm_num : (1:ℕ) < 10) (by norm_num : (0:ℕ) < 1)]
    norm_num
  unfold natToDecChars
  rw [if_neg (by norm_num), h]
  decide

/-- C4 counterexample: the claim states the emitted segments always
concatenate back to the original answer text.  The marker `[01]`
parses to 1, matches the citation numbered 1 and is displayed as
`[1]` (`[{citationNumber}]` prints the parsed value), so the rendered
text `[1]` differs from the original `[01]`. -/
theorem leading_zero_marker_changes_text :
    segsText (renderAnswerWithLinks ['[', '0', '1', ']'] [citationOne]) =
      ['[', '1', ']'] ∧
    (['[', '1', ']'] : List Char) ≠ ['[', '0', '1', ']'] := by
  refine ⟨?_, by decide⟩
  unfold renderAnswerWithLinks
  have hsplit : splitParts ['[', '0', '1', ']'] = [[], ['[', '0', '1', ']'], []] := by
    decide
  rw [hsplit]
  have h2 : renderPart [citationOne] ['[', '0', '1', ']'] =
      .link ('[' :: natToDecChars 1 ++ [']']) citationOne.deep_link citationOne := by
    unfold renderPart
    rw [show findMarker ['[', '0', '1', ']'] = some ([], ['0', '1'], []) from by decide]
    dsimp only
    rw [show List.find?
          (fun c => c.citation_number == ((digitsToNat ['0', '1'] : Nat) : Int))
          [citationOne] = some citationOne from by decide]
    rfl
  rw [List.map_cons, List.map_cons, List.map_cons, List.map_nil, h2,
    natToDecChars_one]
  decide

/-- C4 amended: the Citation Marker Resolver's segments concatenate
back to the original answer text for every answer none of whose
*resolved* markers carries a zero-padded digit run (a resolved marker
is displayed as the parsed value, so `[01]` with a matching citation 1
would render as `[1]`; an unresolved marker may be zero-padded freely,
since it is passed through literally); a bracketed digit run matching
no citation is always emitted as the unchanged literal (never dropped,
never an exception), both as a part of a larger answer and as a whole
answer. -/
theorem render_reconstructs_answer (answer : List Char) (citations : List Citation)
    (ds : List Char)
    (hlead : ∀ p ∈ splitParts answer, ∀ b dg a, findMarker p = some (b, dg, a) →
      (citations.find?
        (fun c => c.citation_number == (digitsToNat dg : Int))).isSome = true →
      dg.head? ≠ some '0' ∨ dg = ['0'])
    (hne : ds ≠ []) (hdig : ∀ c ∈ ds, c.isDigit = true)
    (hfind : citations.find?
      (fun c => c.citation_number == (digitsToNat ds : Int)) = none) :
    segsText (renderAnswerWithLinks answer citations) = answer ∧
    renderPart citations ('[' :: ds ++ [']']) = .lit ('[' :: ds ++ [']']) ∧
    renderAnswerWithLinks ('[' :: ds ++ [']']) citations =
      [.lit [], .lit ('[' :: ds ++ [']']), .lit []] := by
  have hmarker : renderPart citations ('[' :: ds ++ [']']) =
      .lit ('[' :: ds ++ [']']) := by
    unfold renderPart
    rw [findMarker_marker_part hne hdig]
    dsimp only
    rw [hfind]
  refine ⟨?_, hmarker, ?_⟩
  · unfold segsText renderAnswerWithLinks
    rw [List.map_map]
    have hmap : (splitParts answer).map (segText ∘ renderPart citations) =
        splitParts answer := by
      conv_rhs => rw [← List.map_id (splitParts answer)]
      apply List.map_congr_left
      intro p hp
      exact segText_renderPart citations p (splitParts_shape answer p hp) (hlead p hp)
    rw [hmap, splitParts_flatten]
  · unfold renderAnswerWithLinks
    have hsplit : splitParts ('[' :: ds ++ [']']) =
        [[], '[' :: ds ++ [']'], []] := by
      rw [splitParts_eq, findMarker_marker_part hne hdig]
      rfl
    rw [hsplit, List.map_cons, List.map_cons, List.map_cons, List.map_nil, hmarker]
    rfl

/-- Witness for `render_reconstructs_answer`: answer `x[07]y` whose
zero-padded marker `[07]` matches no citation (the list holds only
number 1), so it is rendered literally and the text reconstructs;
`07` also serves as the standalone unmatched digit run. -/
theorem render_reconstructs_answer_witness :
    segsText (renderAnswerWithLinks ['x', '[', '0', '7', ']', 'y'] [citationOne]) =
      ['x', '[', '0', '7', ']', 'y'] ∧
    renderPart [citationOne] ('[' :: ['0', '7'] ++ [']']) =
      .lit ('[' :: ['0', '7'] ++ [']']) ∧
    renderAnswerWithLinks ('[' :: ['0', '7'] ++ [']']) [citationOne] =
      [.lit [], .lit ('[' :: ['0', '7'] ++ [']']), .lit []] :=
  render_reconstructs_answer ['x', '[', '0', '7', ']', 'y'] [citationOne] ['0', '7']
    (by
      intro p hp b dg a hfm hsome
      rw [show splitParts ['x', '[', '0', '7', ']', 'y'] =
        [['x'], ['[', '0', '7', ']'], ['y']] from by decide] at hp
      simp only [List.mem_cons, List.not_mem_nil, or_false] at hp
      rcases hp with rfl | rfl | rfl
      · rw [show findMarker ['x'] = none from by decide] at hfm
        cases hfm
      · rw [show findMarker ['[', '0', '7', ']'] = some ([], ['0', '7'], [])
          from by decide] at hfm
        cases hfm
        exact absurd hsome (by decide)
      · rw [show findMarker ['y'] = none from by decide] at hfm
        cases hfm)
    (by decide) (by decide) (by decide)
